import Mathlib

/-!
Verification of the libbpf wrapper generator (`scripts/parse_bpf_h.py`).

The generator is a pure batch transform: it scans a C header for
declarations tagged with the `LIBBPF_API` visibility marker, accumulates
each (possibly multi-line) declaration up to the `;` terminator, filters
it against a configured list of exception strings, parses the accepted
text into an `ExportedFunction` record, and prints a preamble, a one-time
init helper, one function-pointer declaration per accepted function and
one wrapper body per accepted function.

Shallow embedding conventions:
* Python strings are modelled as `List Char` (`Chars`); `strL` converts a
  Lean string literal to that representation.
* `str.find` (which returns `-1` when the needle is absent) is modelled by
  `find? : Chars → Chars → Option Nat` together with `pyIdx`, which maps
  `none` to `-1 : Int`.
* Python slicing with possibly-negative end index is `pyTake` / `pySlice`.
* `str.split()` (whitespace words) is `splitWs`; `str.split(",")` (which
  keeps empty pieces, so `"".split(",") == [""]`) is `splitComma`;
  `sep.join` is `joinSep`; `lstrip("*")` is `lstripStar`.
* A Python run-time exception (`IndexError` from `[-1]` on an empty list)
  aborts the whole script; fallible computations therefore return
  `Option`, with `none` marking the uncaught-exception path.
* The header file is modelled by its sequence of lines (the result of
  `bpfh.read().splitlines()`), and the `print` calls by list
  concatenation, each `print` appending a final newline.
-/

namespace ParseBpfH

/-- Python strings, modelled as lists of characters. -/
abbrev Chars := List Char

/-- Literal helper: the character list of a Lean string literal. -/
def strL (s : String) : Chars := s.data

/-- Python `str.isspace` characters relevant to `str.split()`:
space, tab, newline, carriage return, vertical tab, form feed. -/
def isSpace (c : Char) : Bool :=
  c = ' ' || c = '\t' || c = '\n' || c = '\r' || c = '\x0b' || c = '\x0c'

/-- `find? s sub` is the index of the first occurrence of `sub` in `s`
(`none` when absent).  Mirrors Python `s.find(sub)` up to the encoding of
`-1` as `none` (see `pyIdx`). -/
def find? : Chars → Chars → Option Nat
  | [], sub => if sub = [] then some 0 else none
  | c :: rest, sub =>
    if sub.isPrefixOf (c :: rest) then some 0
    else (find? rest sub).map (· + 1)

/-- Decode the `Option Nat` result of `find?` into the `Int` a Python
`str.find` call returns (`-1` for "not found"). -/
def pyIdx : Option Nat → Int
  | none => -1
  | some n => n

/-- Python `s[:i]` for a possibly negative `i` (negative indices count
from the end, clipped at 0). -/
def pyTake (s : Chars) (i : Int) : Chars :=
  if i < 0 then s.take ((s.length : Int) + i).toNat else s.take i.toNat

/-- Python `s[a:b]` for `a ≥ 0` and possibly negative `b`. -/
def pySlice (s : Chars) (a : Nat) (b : Int) : Chars :=
  (pyTake s b).drop a

/-- Worker for `splitWs`; `acc` holds the current word, reversed. -/
def splitWsAux : Chars → Chars → List Chars
  | [], acc => if acc = [] then [] else [acc.reverse]
  | c :: rest, acc =>
    if isSpace c then
      if acc = [] then splitWsAux rest [] else acc.reverse :: splitWsAux rest []
    else splitWsAux rest (c :: acc)

/-- Python `s.split()`: whitespace-separated words, empty pieces
discarded. -/
def splitWs (s : Chars) : List Chars := splitWsAux s []

/-- Python `s.split(",")`: split at every comma, keeping empty pieces;
in particular `splitComma [] = [[]]`, matching `"".split(",") == [""]`. -/
def splitComma : Chars → List Chars
  | [] => [[]]
  | c :: rest =>
    if c = ',' then [] :: splitComma rest
    else
      match splitComma rest with
      | [] => [[c]]
      | p :: ps => (c :: p) :: ps

/-- Python `sep.join xs`. -/
def joinSep (sep : Chars) : List Chars → Chars
  | [] => []
  | [x] => x
  | x :: y :: rest => x ++ sep ++ joinSep sep (y :: rest)

/-- Python `s.lstrip("*")`: remove every leading `*`. -/
def lstripStar (s : Chars) : Chars := s.dropWhile (fun c => c = '*')

/-- The record built by `ExportedFunction.__init__` (source lines 58–77):
the raw declaration text, the function name, the return type, the raw
parameter-list text and the comma-joined forwarded call arguments. -/
structure ExportedFunction where
  func_def : Chars
  func_name : Chars
  func_return : Chars
  func_args : Chars
  processed_args : Chars
deriving DecidableEq, Repr

/-- `tokens = self.func_def[:left].split()` where
`left = self.func_def.find("(")` (source lines 63, 66). -/
def declTokens (s : Chars) : List Chars :=
  splitWs (pyTake s (pyIdx (find? s (strL "("))))

/-- `self.func_args = self.func_def[left+1:right]` where
`left = find("(")` and `right = find(")")` (source lines 63–64, 73). -/
def declArgsSlice (s : Chars) : Chars :=
  pySlice s (pyIdx (find? s (strL "(")) + 1).toNat (pyIdx (find? s (strL ")")))

/-- One iteration of the loop at source lines 75–76:
`token.split()[-1].lstrip("*")`; `none` models the `IndexError` raised by
`[-1]` when the piece contains no word. -/
def processArg (piece : Chars) : Option Chars :=
  (splitWs piece).getLast?.map lstripStar

/-- The loop at source lines 74–76 over `self.func_args.split(",")`:
first failure (Python exception) aborts the whole computation. -/
def processArgList : List Chars → Option (List Chars)
  | [] => some []
  | p :: ps =>
    match processArg p with
    | none => none
    | some x =>
      match processArgList ps with
      | none => none
      | some xs => some (x :: xs)

/-- `ExportedFunction.__init__` (source lines 60–77).  `none` models an
uncaught Python exception: `tokens[-1]` on an empty token list, or an
`IndexError` inside the argument loop. -/
def mkExportedFunction (s : Chars) : Option ExportedFunction :=
  match (declTokens s).getLast? with
  | none => none
  | some nm =>
    match processArgList (splitComma (declArgsSlice s)) with
    | none => none
    | some res =>
      some {
        func_def := s
        func_name := nm
        -- `" ".join(tokens[1:-1])`: drop the LIBBPF_API marker and the name
        func_return := joinSep (strL " ") (((declTokens s).drop 1).dropLast)
        func_args := declArgsSlice s
        processed_args := joinSep (strL ", ") res
      }

/-! ### The emitter (source lines 8–56, 79–103) -/

/-- `PREAMBLE` (source lines 8–12). -/
def PREAMBLE : Chars :=
  strL "#include <bpf/bpf.h>\n#include <dlfcn.h>\n#include <pthread.h>\n\n"

/-- `INIT` (source lines 14–28). -/
def INIT : Chars :=
  strL "\nstatic bool init_done = false;\nstatic void* default_rtld = NULL;\nstatic pthread_mutex_t init_lock = PTHREAD_MUTEX_INITIALIZER;\n\nstatic void inline init_dl(void)\n\x7b\n    pthread_mutex_lock(&init_lock);\n    if (!init_done) \x7b\n        default_rtld = dlopen(\"libbpf.so\", RTLD_LOCAL);\n        init_done = true;\n    \x7d\n    pthread_mutex_unlock(&init_lock);\n\x7d\n"

/-- `DECLARE_TEMPLATE.format(...)` = `dump_declaration`
(source lines 30–32, 96–103). -/
def dump_declaration (f : ExportedFunction) : Chars :=
  strL "\nstatic  " ++ f.func_return ++ strL " (*real_" ++ f.func_name ++
    strL ")(" ++ f.func_args ++ strL ") = NULL;\n"

/-- `INVOKE_NON_VOID_TEMPLATE.format(...)` (source lines 34–44). -/
def INVOKE_NON_VOID (f : ExportedFunction) : Chars :=
  strL "\n" ++ f.func_return ++ strL " " ++ f.func_name ++ strL "(" ++
    f.func_args ++ strL ")\n\x7b\n    init_dl();\n    if (!real_" ++
    f.func_name ++ strL ") \x7b\n        real_" ++ f.func_name ++
    strL " = dlsym(default_rtld, \"" ++ f.func_name ++
    strL "\");\n    \x7d\n    return real_" ++ f.func_name ++ strL "(" ++
    f.processed_args ++ strL ");\n\x7d\n\n"

/-- `INVOKE_VOID_TEMPLATE.format(...)` (source lines 46–56). -/
def INVOKE_VOID (f : ExportedFunction) : Chars :=
  strL "\n" ++ f.func_return ++ strL " " ++ f.func_name ++ strL "(" ++
    f.func_args ++ strL ")\n\x7b\n    init_dl();\n    if (!real_" ++
    f.func_name ++ strL ") \x7b\n        real_" ++ f.func_name ++
    strL " = dlsym(default_rtld, \"" ++ f.func_name ++
    strL "\");\n    \x7d\n    real_" ++ f.func_name ++ strL "(" ++
    f.processed_args ++ strL ");\n\x7d\n\n"

/-- `dump_wrapper` (source lines 79–94): the void template exactly when
`self.func_return == "void"`. -/
def dump_wrapper (f : ExportedFunction) : Chars :=
  if f.func_return = strL "void" then INVOKE_VOID f else INVOKE_NON_VOID f

/-! ### The extractor and `main` (source lines 105–142) -/

/-- `line.find(sub) != -1`. -/
def containsSub (s sub : Chars) : Bool := pyIdx (find? s sub) != -1

/-- The exception loop at source lines 125–128: Python's
`if func_def.find(skip):` treats the returned index as a boolean, so the
declaration survives a `skip` entry exactly when `find` returns `0`.
Returns the value of `start` after the loop. -/
def checkExceptions (fd : Chars) : List Chars → Bool
  | [] => true
  | skip :: rest =>
    if pyIdx (find? fd skip) ≠ 0 then false else checkExceptions fd rest

/-- The loop state of `main` (source lines 116–118): the `start` flag,
the accumulator `func_def` and the collected `defs`. -/
structure GenState where
  start : Bool
  func_def : Chars
  defs : List ExportedFunction
deriving DecidableEq, Repr

/-- Initial loop state (source lines 116–118). -/
def initState : GenState := ⟨false, [], []⟩

/-- One iteration of the line loop of `main` (source lines 119–132).
`none` models a Python exception escaping `ExportedFunction(func_def)`,
which aborts the whole run. -/
def stepLine (exceptions : List Chars) (st : GenState) (line : Chars) :
    Option GenState :=
  let start1 := if containsSub line (strL "LIBBPF_API") then true else st.start
  let fd1 := if start1 then st.func_def ++ line ++ strL "\n" else st.func_def
  if containsSub line (strL ";") && start1 then
    if checkExceptions fd1 exceptions then
      match mkExportedFunction fd1 with
      | none => none
      | some f => some ⟨false, [], st.defs ++ [f]⟩
    else some ⟨false, [], st.defs⟩
  else some ⟨start1, fd1, st.defs⟩

/-- The full line loop of `main` over the header's lines. -/
def runLines (exceptions : List Chars) : GenState → List Chars → Option GenState
  | st, [] => some st
  | st, l :: rest =>
    match stepLine exceptions st l with
    | none => none
    | some st2 => runLines exceptions st2 rest

/-- The output phase of `main` (source lines 135–142): each `print`
appends a newline; the two `for` loops are left folds over `defs`. -/
def mainOutput (exceptions : List Chars) (lines : List Chars) : Option Chars :=
  match runLines exceptions initState lines with
  | none => none
  | some st =>
    let out0 := PREAMBLE ++ strL "\n" ++ INIT ++ strL "\n"
    let out1 := st.defs.foldl (fun acc f => acc ++ dump_declaration f ++ strL "\n") out0
    let out2 := st.defs.foldl (fun acc f => acc ++ dump_wrapper f ++ strL "\n") out1
    some out2

/-! ### Auxiliary notions used by the statements -/

/-- The part of the two wrapper templates before the single point where
they diverge: everything up to and including the four-space indentation
of the forwarding statement. -/
def wrapHead (f : ExportedFunction) : Chars :=
  strL "\n" ++ f.func_return ++ strL " " ++ f.func_name ++ strL "(" ++
    f.func_args ++ strL ")\n\x7b\n    init_dl();\n    if (!real_" ++
    f.func_name ++ strL ") \x7b\n        real_" ++ f.func_name ++
    strL " = dlsym(default_rtld, \"" ++ f.func_name ++ strL "\");\n    \x7d\n    "

/-- The part of the two wrapper templates after the single point where
they diverge: the forwarded call itself and the closing brace. -/
def wrapTail (f : ExportedFunction) : Chars :=
  strL "real_" ++ f.func_name ++ strL "(" ++ f.processed_args ++ strL ");\n\x7d\n\n"

/-- A plain C token: nonempty, containing no whitespace, parenthesis or
comma character.  The tokens of a well-formed declaration head and of its
parameters are of this form. -/
def goodTok (t : Chars) : Bool :=
  !t.isEmpty && t.all (fun c => !isSpace c && c ≠ '(' && c ≠ ')' && c ≠ ',')

/-! ## Theorems -/

/-! ### Literal reductions -/

theorem strL_space : strL " " = [' '] := rfl

theorem strL_lpar : strL "(" = ['('] := rfl

theorem strL_rpar : strL ")" = [')'] := rfl

theorem strL_commaSpace : strL ", " = [',', ' '] := rfl

theorem strL_spaceStar : strL " *" = [' ', '*'] := rfl

theorem strL_close : strL ");\n" = [')', ';', '\n'] := rfl

theorem strL_semi : strL ";" = [';'] := rfl

theorem strL_nl : strL "\n" = ['\n'] := rfl

/-! ### `find?` and `pyIdx` -/

theorem find?_eq_zero_iff {s sub : Chars} :
    find? s sub = some 0 ↔ sub.isPrefixOf s = true := by
  cases s with
  | nil => cases sub <;> simp [find?, List.isPrefixOf]
  | cons c rest =>
    by_cases h : sub.isPrefixOf (c :: rest)
    · simp [find?, h]
    · simp only [find?, h, Bool.false_eq_true, if_false]
      cases find? rest sub <;> simp [h]

theorem find?_char_append {c : Char} {xs : Chars} (ys : Chars) (h : c ∉ xs) :
    find? (xs ++ c :: ys) [c] = some xs.length := by
  induction xs with
  | nil => simp [find?, List.isPrefixOf]
  | cons x xs ih =>
    have hx : c ≠ x := fun he => h (by simp [he])
    have hpre : List.isPrefixOf [c] (x :: (xs ++ c :: ys)) = false := by
      simp [List.isPrefixOf, hx]
    simp only [List.cons_append, find?, List.append_eq, hpre, Bool.false_eq_true,
      if_false, ih (fun hm => h (List.mem_cons_of_mem _ hm))]
    rfl

theorem pyIdx_eq_zero_iff (o : Option Nat) : pyIdx o = 0 ↔ o = some 0 := by
  cases o with
  | none => simp [pyIdx]
  | some n => simp [pyIdx, Int.natCast_eq_zero]

/-! ### `splitWs` -/

theorem splitWsAux_word {w : Chars} (hw : ∀ c ∈ w, isSpace c = false) :
    ∀ (rest acc : Chars),
      splitWsAux (w ++ rest) acc = splitWsAux rest (w.reverse ++ acc) := by
  induction w with
  | nil => intro rest acc; simp
  | cons c w ih =>
    intro rest acc
    have hc : isSpace c = false := hw c (by simp)
    have hw2 : ∀ x ∈ w, isSpace x = false := fun x hx => hw x (by simp [hx])
    simp only [List.cons_append, splitWsAux, List.append_eq, hc, Bool.false_eq_true,
      if_false, ih hw2, List.reverse_cons, List.append_assoc, List.singleton_append,
      List.nil_append]

theorem splitWs_word_append {w : Chars} (hw : ∀ c ∈ w, isSpace c = false)
    (hne : w ≠ []) (rest : Chars) :
    splitWs (w ++ ' ' :: rest) = w :: splitWs rest := by
  have hrev : w.reverse ≠ [] := by simp [hne]
  unfold splitWs
  rw [splitWsAux_word hw (' ' :: rest) []]
  simp only [List.append_nil, splitWsAux, isSpace]
  simp [hrev]

theorem splitWs_word {w : Chars} (hw : ∀ c ∈ w, isSpace c = false)
    (hne : w ≠ []) : splitWs w = [w] := by
  have hrev : w.reverse ≠ [] := by simp [hne]
  have h0 : splitWs (w ++ []) = splitWsAux [] (w.reverse ++ []) :=
    splitWsAux_word hw [] []
  simp only [List.append_nil] at h0
  rw [h0]
  simp [splitWsAux, hrev]

theorem splitWs_space_cons (rest : Chars) :
    splitWs (' ' :: rest) = splitWs rest := by
  simp [splitWs, splitWsAux, isSpace]

/-! ### `splitComma` and `lstripStar` -/

theorem splitComma_no_comma {xs : Chars} (h : ',' ∉ xs) : splitComma xs = [xs] := by
  induction xs with
  | nil => rfl
  | cons c xs ih =>
    have hc : c ≠ ',' := fun he => h (by simp [he])
    have h2 : ',' ∉ xs := fun hm => h (List.mem_cons_of_mem _ hm)
    simp only [splitComma, hc, if_false, ih h2]

theorem splitComma_append {xs : Chars} (ys : Chars) (h : ',' ∉ xs) :
    splitComma (xs ++ ',' :: ys) = xs :: splitComma ys := by
  induction xs with
  | nil => simp [splitComma]
  | cons c xs ih =>
    have hc : c ≠ ',' := fun he => h (by simp [he])
    have h2 : ',' ∉ xs := fun hm => h (List.mem_cons_of_mem _ hm)
    simp only [List.cons_append, splitComma, List.append_eq, hc, if_false, ih h2]

theorem lstripStar_cons_ne {c : Char} (s : Chars) (h : c ≠ '*') :
    lstripStar (c :: s) = c :: s := by
  simp [lstripStar, List.dropWhile_cons, h]

theorem lstripStar_cons_star (s : Chars) :
    lstripStar ('*' :: s) = lstripStar s := by
  simp [lstripStar, List.dropWhile_cons]

/-! ### `goodTok` -/

theorem goodTok_iff {t : Chars} : goodTok t = true ↔
    t ≠ [] ∧ ∀ c ∈ t, isSpace c = false ∧ c ≠ '(' ∧ c ≠ ')' ∧ c ≠ ',' := by
  simp [goodTok, List.all_eq_true, List.isEmpty_iff, and_assoc]

theorem goodTok_ne_nil {t : Chars} (h : goodTok t = true) : t ≠ [] :=
  (goodTok_iff.mp h).1

theorem goodTok_nospace {t : Chars} (h : goodTok t = true) :
    ∀ c ∈ t, isSpace c = false := fun c hc => ((goodTok_iff.mp h).2 c hc).1

theorem goodTok_no_lpar {t : Chars} (h : goodTok t = true) : '(' ∉ t :=
  fun hm => ((goodTok_iff.mp h).2 _ hm).2.1 rfl

theorem goodTok_no_rpar {t : Chars} (h : goodTok t = true) : ')' ∉ t :=
  fun hm => ((goodTok_iff.mp h).2 _ hm).2.2.1 rfl

theorem goodTok_no_comma {t : Chars} (h : goodTok t = true) : ',' ∉ t :=
  fun hm => ((goodTok_iff.mp h).2 _ hm).2.2.2 rfl

/-! ### The exception filter -/

theorem checkExceptions_eq_true_iff (fd : Chars) :
    ∀ exceptions : List Chars,
      checkExceptions fd exceptions = true ↔
        ∀ skip ∈ exceptions, List.isPrefixOf skip fd = true := by
  intro exceptions
  induction exceptions with
  | nil => simp [checkExceptions]
  | cons sk rest ih =>
    by_cases h : pyIdx (find? fd sk) = 0
    · have hp : List.isPrefixOf sk fd = true :=
        find?_eq_zero_iff.mp ((pyIdx_eq_zero_iff _).mp h)
      unfold checkExceptions
      rw [if_neg (by simp [h])]
      rw [ih]
      constructor
      · intro hall skip hm
        rcases List.mem_cons.mp hm with he | hm2
        · rwa [he]
        · exact hall skip hm2
      · intro hall skip hm
        exact hall skip (List.mem_cons_of_mem _ hm)
    · have hp : ¬ List.isPrefixOf sk fd = true := fun hc =>
        h ((pyIdx_eq_zero_iff _).mpr (find?_eq_zero_iff.mpr hc))
      unfold checkExceptions
      rw [if_pos h]
      simp only [Bool.false_eq_true, false_iff]
      intro hall
      exact hp (hall sk (by simp))

/-! ### The line loop -/

theorem stepLine_no_semi (exc : List Chars) (st : GenState) {line : Chars}
    (h : find? line (strL ";") = none) :
    ∃ b fd, stepLine exc st line = some ⟨b, fd, st.defs⟩ := by
  have hc : containsSub line (strL ";") = false := by
    simp [containsSub, h, pyIdx]
  unfold stepLine
  rw [hc]
  exact ⟨_, _, rfl⟩

theorem runLines_no_semi (exc : List Chars) {tail : List Chars}
    (h : ∀ l ∈ tail, find? l (strL ";") = none) :
    ∀ st : GenState, ∃ b fd, runLines exc st tail = some ⟨b, fd, st.defs⟩ := by
  induction tail with
  | nil => intro st; exact ⟨st.start, st.func_def, rfl⟩
  | cons l tail ih =>
    intro st
    obtain ⟨b0, fd0, h0⟩ := stepLine_no_semi exc st (h l (by simp))
    have h2 : ∀ x ∈ tail, find? x (strL ";") = none := fun x hx => h x (by simp [hx])
    obtain ⟨b1, fd1, h1⟩ := ih h2 ⟨b0, fd0, st.defs⟩
    exact ⟨b1, fd1, by simp only [runLines, h0]; exact h1⟩

theorem runLines_append (exc : List Chars) (xs ys : List Chars) :
    ∀ st, runLines exc st (xs ++ ys) =
      (runLines exc st xs).bind (fun st2 => runLines exc st2 ys) := by
  induction xs with
  | nil => intro st; simp [runLines]
  | cons l xs ih =>
    intro st
    simp only [List.cons_append, runLines]
    cases stepLine exc st l with
    | none => simp
    | some st2 => simp [ih st2]

theorem foldl_emit (g : ExportedFunction → Chars) :
    ∀ (ds : List ExportedFunction) (acc : Chars),
      ds.foldl (fun a f => a ++ g f ++ strL "\n") acc
        = acc ++ (ds.map (fun f => g f ++ strL "\n")).flatten := by
  intro ds
  induction ds with
  | nil => intro acc; simp
  | cons d ds ih =>
    intro acc
    rw [List.foldl_cons, ih]
    simp [List.append_assoc]

/-! ### Claims -/

/-- C1 (code evaluation at the failing input): with configured exceptions
`["foo"]`, the declaration `LIBBPF_API int bar(int x);` contains no
occurrence of `foo` — `find` returns `-1` — yet the run drops it, because
`if func_def.find(skip):` treats `-1` as true.  The spec requires such a
declaration to be emitted; the code leaves `defs` empty. -/
theorem c1_exception_filter_eval :
    find? (strL "LIBBPF_API int bar(int x);\n") (strL "foo") = none ∧
    runLines [strL "foo"] initState [strL "LIBBPF_API int bar(int x);"] =
      some ⟨false, [], []⟩ := by decide

/-- C2 (code evaluation at the failing input): the declaration text
`LIBBPF_API int foo;\n` contains no parameter-list parentheses (`find`
returns `-1` for `(`), yet `ExportedFunction.__init__` does not fail:
the `-1` indices silently slice garbage and a record is constructed with
name `foo;` and parameter list `LIBBPF_API int foo;`, which is then
emitted as corrupt code.  The spec requires a `MalformedDeclaration`
failure here. -/
theorem c2_no_parens_eval :
    find? (strL "LIBBPF_API int foo;\n") (strL "(") = none ∧
    mkExportedFunction (strL "LIBBPF_API int foo;\n") =
      some ⟨strL "LIBBPF_API int foo;\n", strL "foo;", strL "int",
            strL "LIBBPF_API int foo;", strL "foo;"⟩ := by decide

/-- C3 counterexample: on `LIBBPF_API void foo();\n` the text strictly
between the first `(` and the first `)` is empty, but Signature
construction does not succeed with empty `callArgs` — it fails:
`"".split(",")` is `[""]`, and `"".split()[-1]` raises `IndexError`. -/
theorem c3_counterexample :
    declArgsSlice (strL "LIBBPF_API void foo();\n") = [] ∧
    mkExportedFunction (strL "LIBBPF_API void foo();\n") = none := by decide

/-- C3 (amended): for every RawDeclaration whose text strictly between
the first `(` and the first `)` is empty, Signature construction fails
(the call-argument tokenizer hits the empty parameter piece and raises),
so no Signature and no wrapper is produced for it. -/
theorem c3_empty_params_fail (s : Chars)
    (_hl : find? s (strL "(") ≠ none) (_hr : find? s (strL ")") ≠ none)
    (hempty : declArgsSlice s = []) :
    mkExportedFunction s = none := by
  unfold mkExportedFunction
  rw [hempty]
  cases (declTokens s).getLast? <;> rfl

/-- C3 witness: the amended theorem applied at `LIBBPF_API int g();\n`. -/
theorem c3_empty_params_fail_witness :
    declArgsSlice (strL "LIBBPF_API int g();\n") = [] ∧
    mkExportedFunction (strL "LIBBPF_API int g();\n") = none :=
  ⟨by decide, c3_empty_params_fail _ (by decide) (by decide) (by decide)⟩

/-- C4 (code evaluation at the failing input): on a header with the two
declarations `LIBBPF_API void f();` and `LIBBPF_API int g(int x);`, the
first raises `IndexError` inside `ExportedFunction` (empty parameter
list), the exception propagates out of the loop in `main`, and the whole
run aborts: nothing is produced, although the second declaration on its
own parses fine.  The spec requires per-declaration failure isolation. -/
theorem c4_failure_aborts_run_eval :
    runLines [] initState
      [strL "LIBBPF_API void f();", strL "LIBBPF_API int g(int x);"] = none ∧
    mainOutput [] [strL "LIBBPF_API void f();", strL "LIBBPF_API int g(int x);"] = none ∧
    (mkExportedFunction (strL "LIBBPF_API int g(int x);\n")).isSome = true := by
  decide

/-- C9: the generator is a deterministic pure function of the header
lines and the configured exceptions; two runs on identical input produce
identical output. -/
theorem c9_deterministic (exceptions lines : List Chars) (o1 o2 : Option Chars)
    (h1 : mainOutput exceptions lines = o1)
    (h2 : mainOutput exceptions lines = o2) : o1 = o2 := by
  rw [← h1, ← h2]

/-- C9 witness: two runs on a concrete one-declaration header agree. -/
theorem c9_deterministic_witness :
    mainOutput [] [strL "LIBBPF_API int f(int x);"] =
      mainOutput [] [strL "LIBBPF_API int f(int x);"] :=
  c9_deterministic [] [strL "LIBBPF_API int f(int x);"] _ _ rfl rfl

/-- C10: with a non-empty exceptions list, the filter at source lines
125–128 lets a terminated declaration through to Signature construction
exactly when every configured exception string occurs at position 0 of
the accumulated text, i.e. is a prefix of it (`find` returning `0` is
the only falsy outcome of `if func_def.find(skip):`); in particular a
declaration containing no exception substring at all is rejected. -/
theorem c10_accept_iff_all_prefixes (exceptions : List Chars) (fd : Chars)
    (_hne : exceptions ≠ []) :
    checkExceptions fd exceptions = true ↔
      ∀ skip ∈ exceptions, List.isPrefixOf skip fd = true :=
  checkExceptions_eq_true_iff fd exceptions

/-- C10 witness: at the one-entry exceptions list `["LIBBPF_API"]` and a
declaration starting with that string, the equivalence holds and both
sides are true. -/
theorem c10_accept_iff_all_prefixes_witness :
    ([strL "LIBBPF_API"] : List Chars) ≠ [] ∧
    (checkExceptions (strL "LIBBPF_API int f(int x);\n") [strL "LIBBPF_API"] = true ↔
      ∀ skip ∈ ([strL "LIBBPF_API"] : List Chars),
        List.isPrefixOf skip (strL "LIBBPF_API int f(int x);\n") = true) :=
  ⟨by decide, c10_accept_iff_all_prefixes [strL "LIBBPF_API"]
    (strL "LIBBPF_API int f(int x);\n") (by decide)⟩

/-- C6: the rendered wrapper body is the common head, then the token
`return ` exactly when `func_return` is not the literal token `void`
(nothing at all when it is), then the common tail holding the forwarded
call — so the void and non-void variants differ only in whether the
forwarded call's result is returned, and are otherwise identical. -/
theorem c6_wrapper_return_iff_nonvoid (f : ExportedFunction) :
    dump_wrapper f =
      wrapHead f ++
        (if f.func_return = strL "void" then [] else strL "return ") ++
        wrapTail f := by
  unfold dump_wrapper
  by_cases h : f.func_return = strL "void"
  · rw [if_pos h, if_pos h]
    unfold INVOKE_VOID wrapHead wrapTail
    rw [show (strL "\");\n    \x7d\n    real_" : Chars) =
      strL "\");\n    \x7d\n    " ++ strL "real_" from rfl]
    simp [List.append_assoc]
  · rw [if_neg h, if_neg h]
    unfold INVOKE_NON_VOID wrapHead wrapTail
    rw [show (strL "\");\n    \x7d\n    return real_" : Chars) =
      strL "\");\n    \x7d\n    " ++ (strL "return " ++ strL "real_") from rfl]
    simp [List.append_assoc]

/-- C7: whenever the line loop completes, the emitted output is exactly
the fixed preamble, the fixed one-time-init helper, one function-pointer
declaration per accepted declaration in `defs` order, then one wrapper
body per accepted declaration in the same order — no reordering and no
deduplication, since both blocks are verbatim maps over the same list. -/
theorem c7_output_order (exceptions lines : List Chars) (st : GenState)
    (h : runLines exceptions initState lines = some st) :
    mainOutput exceptions lines =
      some (PREAMBLE ++ strL "\n" ++ INIT ++ strL "\n" ++
        (st.defs.map (fun f => dump_declaration f ++ strL "\n")).flatten ++
        (st.defs.map (fun f => dump_wrapper f ++ strL "\n")).flatten) := by
  simp only [mainOutput, h]
  rw [foldl_emit dump_declaration, foldl_emit dump_wrapper]

/-- C7 witness: the theorem applied to a concrete one-declaration
header. -/
theorem c7_output_order_witness :
    runLines [] initState [strL "LIBBPF_API int f(int x);"] =
      some ⟨false, [], [⟨strL "LIBBPF_API int f(int x);\n", strL "f", strL "int",
        strL "int x", strL "x"⟩]⟩ ∧
    mainOutput [] [strL "LIBBPF_API int f(int x);"] =
      some (PREAMBLE ++ strL "\n" ++ INIT ++ strL "\n" ++
        ((GenState.mk false [] [⟨strL "LIBBPF_API int f(int x);\n", strL "f",
            strL "int", strL "int x", strL "x"⟩]).defs.map
          (fun f => dump_declaration f ++ strL "\n")).flatten ++
        ((GenState.mk false [] [⟨strL "LIBBPF_API int f(int x);\n", strL "f",
            strL "int", strL "int x", strL "x"⟩]).defs.map
          (fun f => dump_wrapper f ++ strL "\n")).flatten) :=
  ⟨by decide, c7_output_order [] [strL "LIBBPF_API int f(int x);"] _ (by decide)⟩

/-- C8: lines that contain no statement terminator — in particular a
trailing declaration whose visibility-marker line is never followed by a
terminator before end of input — are silently dropped: appending them to
any header leaves the output unchanged, so nothing is emitted for them,
no error is raised, and the declarations extracted before them are
unaffected. -/
theorem c8_unterminated_dropped (exceptions headerPre tail : List Chars)
    (h : ∀ l ∈ tail, find? l (strL ";") = none) :
    mainOutput exceptions (headerPre ++ tail) = mainOutput exceptions headerPre := by
  unfold mainOutput
  rw [runLines_append]
  cases hpre : runLines exceptions initState headerPre with
  | none => rfl
  | some st =>
    obtain ⟨b, fd, htail⟩ := runLines_no_semi exceptions h st
    simp only [Option.some_bind]
    rw [htail]

/-- C8 witness: the theorem applied to a concrete header whose last line
opens a declaration with the visibility marker but has no terminator. -/
theorem c8_unterminated_dropped_witness :
    (∀ l ∈ [strL "LIBBPF_API int g(int"], find? l (strL ";") = none) ∧
    mainOutput [] ([strL "LIBBPF_API int f(int x);"] ++ [strL "LIBBPF_API int g(int"]) =
      mainOutput [] [strL "LIBBPF_API int f(int x);"] :=
  ⟨by decide, c8_unterminated_dropped [] [strL "LIBBPF_API int f(int x);"]
    [strL "LIBBPF_API int g(int"] (by decide)⟩

/-- C5: for a declaration of the exact shape `MARKER RET NAME(T1 a, T2 *b);`
built from plain tokens (no whitespace, parentheses or commas inside a
token, and the parameter names not starting with `*`), the constructed
record has `func_name = NAME`, `func_return = RET`, the raw parameter
text kept verbatim, and forwarded call arguments `a, b` with the leading
pointer marker stripped from `b`. -/
theorem c5_signature_shape (marker ret name t1 a t2 b : Chars)
    (hm : goodTok marker = true) (hr : goodTok ret = true)
    (hn : goodTok name = true) (h1 : goodTok t1 = true)
    (ha : goodTok a = true) (h2 : goodTok t2 = true) (hb : goodTok b = true)
    (ha2 : a.head? ≠ some '*') (hb2 : b.head? ≠ some '*') :
    mkExportedFunction (marker ++ strL " " ++ ret ++ strL " " ++ name ++ strL "(" ++
        t1 ++ strL " " ++ a ++ strL ", " ++ t2 ++ strL " *" ++ b ++ strL ");\n") =
      some ⟨marker ++ strL " " ++ ret ++ strL " " ++ name ++ strL "(" ++
          t1 ++ strL " " ++ a ++ strL ", " ++ t2 ++ strL " *" ++ b ++ strL ");\n",
        name, ret,
        t1 ++ strL " " ++ a ++ strL ", " ++ t2 ++ strL " *" ++ b,
        a ++ strL ", " ++ b⟩ := by
  have hS : marker ++ strL " " ++ ret ++ strL " " ++ name ++ strL "(" ++
      t1 ++ strL " " ++ a ++ strL ", " ++ t2 ++ strL " *" ++ b ++ strL ");\n"
      = (marker ++ ' ' :: (ret ++ ' ' :: name)) ++ '(' ::
        ((t1 ++ ' ' :: (a ++ ',' :: ' ' :: (t2 ++ ' ' :: '*' :: b))) ++ [')', ';', '\n']) := by
    simp [strL_space, strL_lpar, strL_commaSpace, strL_spaceStar, strL_close,
      List.append_assoc]
  have hM : t1 ++ strL " " ++ a ++ strL ", " ++ t2 ++ strL " *" ++ b
      = t1 ++ ' ' :: (a ++ ',' :: ' ' :: (t2 ++ ' ' :: '*' :: b)) := by
    simp [strL_space, strL_commaSpace, strL_spaceStar, List.append_assoc]
  rw [hS, hM]
  set pre := marker ++ ' ' :: (ret ++ ' ' :: name) with hpre
  set mid := t1 ++ ' ' :: (a ++ ',' :: ' ' :: (t2 ++ ' ' :: '*' :: b)) with hmid
  set s := pre ++ '(' :: (mid ++ [')', ';', '\n']) with hs
  have hlpar_pre : '(' ∉ pre := by
    rw [hpre]
    intro hmem
    simp only [List.mem_append, List.mem_cons, or_assoc] at hmem
    rcases hmem with h | h | h | h | h <;>
      first
        | exact goodTok_no_lpar hm h
        | exact goodTok_no_lpar hr h
        | exact goodTok_no_lpar hn h
        | exact absurd h (by decide)
  have hfl : find? s (strL "(") = some pre.length := by
    rw [hs, strL_lpar]
    exact find?_char_append _ hlpar_pre
  have htok : declTokens s = [marker, ret, name] := by
    unfold declTokens
    rw [hfl, show pyIdx (some pre.length) = (pre.length : Int) from rfl]
    unfold pyTake
    rw [if_neg (by omega), Int.toNat_natCast, hs, List.take_left, hpre]
    rw [splitWs_word_append (goodTok_nospace hm) (goodTok_ne_nil hm),
        splitWs_word_append (goodTok_nospace hr) (goodTok_ne_nil hr),
        splitWs_word (goodTok_nospace hn) (goodTok_ne_nil hn)]
  have hs2 : s = (pre ++ '(' :: mid) ++ ')' :: [';', '\n'] := by
    rw [hs]
    simp [List.append_assoc]
  have hrpar_pre2 : ')' ∉ pre ++ '(' :: mid := by
    rw [hpre, hmid]
    intro hmem
    simp only [List.mem_append, List.mem_cons, or_assoc] at hmem
    rcases hmem with h | h | h | h | h | h | h | h | h | h | h | h | h | h | h <;>
      first
        | exact goodTok_no_rpar hm h
        | exact goodTok_no_rpar hr h
        | exact goodTok_no_rpar hn h
        | exact goodTok_no_rpar h1 h
        | exact goodTok_no_rpar ha h
        | exact goodTok_no_rpar h2 h
        | exact goodTok_no_rpar hb h
        | exact absurd h (by decide)
  have hfr : find? s (strL ")") = some (pre ++ '(' :: mid).length := by
    rw [hs2, strL_rpar]
    exact find?_char_append _ hrpar_pre2
  have hargs : declArgsSlice s = mid := by
    unfold declArgsSlice
    rw [hfl, hfr,
        show pyIdx (some pre.length) = (pre.length : Int) from rfl,
        show pyIdx (some (pre ++ '(' :: mid).length)
          = ((pre ++ '(' :: mid).length : Int) from rfl]
    unfold pySlice pyTake
    rw [if_neg (by omega), Int.toNat_natCast, hs2, List.take_left]
    rw [show ((pre.length : Int) + 1).toNat = pre.length + 1 from by omega]
    rw [show pre ++ '(' :: mid = (pre ++ ['(']) ++ mid from by simp]
    rw [show pre.length + 1 = (pre ++ ['(']).length from by simp]
    exact List.drop_left _ _
  have hc1 : ',' ∉ t1 ++ ' ' :: a := by
    intro hmem
    simp only [List.mem_append, List.mem_cons, or_assoc] at hmem
    rcases hmem with h | h | h <;>
      first
        | exact goodTok_no_comma h1 h
        | exact goodTok_no_comma ha h
        | exact absurd h (by decide)
  have hc2 : ',' ∉ ' ' :: (t2 ++ ' ' :: '*' :: b) := by
    intro hmem
    simp only [List.mem_append, List.mem_cons, or_assoc] at hmem
    rcases hmem with h | h | h | h | h <;>
      first
        | exact goodTok_no_comma h2 h
        | exact goodTok_no_comma hb h
        | exact absurd h (by decide)
  have hsc : splitComma mid = [t1 ++ ' ' :: a, ' ' :: (t2 ++ ' ' :: '*' :: b)] := by
    rw [hmid,
        show t1 ++ ' ' :: (a ++ ',' :: ' ' :: (t2 ++ ' ' :: '*' :: b))
          = (t1 ++ ' ' :: a) ++ ',' :: (' ' :: (t2 ++ ' ' :: '*' :: b)) from by simp]
    rw [splitComma_append _ hc1, splitComma_no_comma hc2]
  have hp1 : processArg (t1 ++ ' ' :: a) = some a := by
    unfold processArg
    rw [splitWs_word_append (goodTok_nospace h1) (goodTok_ne_nil h1),
        splitWs_word (goodTok_nospace ha) (goodTok_ne_nil ha)]
    show some (lstripStar a) = some a
    obtain ⟨c, as2, hca⟩ := List.exists_cons_of_ne_nil (goodTok_ne_nil ha)
    have hcne : c ≠ '*' := by
      intro he
      apply ha2
      rw [hca, he]
      rfl
    rw [hca, lstripStar_cons_ne _ hcne]
  have hp2 : processArg (' ' :: (t2 ++ ' ' :: '*' :: b)) = some b := by
    unfold processArg
    rw [splitWs_space_cons,
        splitWs_word_append (goodTok_nospace h2) (goodTok_ne_nil h2)]
    have hstar : ∀ c ∈ ('*' :: b), isSpace c = false := by
      intro c hcm
      rcases List.mem_cons.mp hcm with he | hmm2
      · rw [he]; decide
      · exact goodTok_nospace hb c hmm2
    rw [splitWs_word hstar (by simp)]
    show some (lstripStar ('*' :: b)) = some b
    rw [lstripStar_cons_star]
    obtain ⟨c, bs, hcb⟩ := List.exists_cons_of_ne_nil (goodTok_ne_nil hb)
    have hcne : c ≠ '*' := by
      intro he
      apply hb2
      rw [hcb, he]
      rfl
    rw [hcb, lstripStar_cons_ne _ hcne]
  have hargsList : processArgList (splitComma mid) = some [a, b] := by
    rw [hsc]
    simp only [processArgList, hp1, hp2]
  unfold mkExportedFunction
  simp only [htok, hargs, hargsList]
  rfl

/-- C5 witness: the theorem applied to the concrete declaration
`LIBBPF_API int bpf_f(int x, char *buf);`. -/
theorem c5_signature_shape_witness :
    goodTok (strL "LIBBPF_API") = true ∧ goodTok (strL "int") = true ∧
    goodTok (strL "bpf_f") = true ∧ goodTok (strL "x") = true ∧
    goodTok (strL "char") = true ∧ goodTok (strL "buf") = true ∧
    (strL "x").head? ≠ some '*' ∧ (strL "buf").head? ≠ some '*' ∧
    mkExportedFunction (strL "LIBBPF_API" ++ strL " " ++ strL "int" ++ strL " " ++
        strL "bpf_f" ++ strL "(" ++ strL "int" ++ strL " " ++ strL "x" ++ strL ", " ++
        strL "char" ++ strL " *" ++ strL "buf" ++ strL ");\n") =
      some ⟨strL "LIBBPF_API" ++ strL " " ++ strL "int" ++ strL " " ++ strL "bpf_f" ++
          strL "(" ++ strL "int" ++ strL " " ++ strL "x" ++ strL ", " ++ strL "char" ++
          strL " *" ++ strL "buf" ++ strL ");\n",
        strL "bpf_f", strL "int",
        strL "int" ++ strL " " ++ strL "x" ++ strL ", " ++ strL "char" ++
          strL " *" ++ strL "buf",
        strL "x" ++ strL ", " ++ strL "buf"⟩ :=
  ⟨by decide, by decide, by decide, by decide, by decide, by decide,
   by decide, by decide,
   c5_signature_shape (strL "LIBBPF_API") (strL "int") (strL "bpf_f") (strL "int")
     (strL "x") (strL "char") (strL "buf") (by decide) (by decide) (by decide)
     (by decide) (by decide) (by decide) (by decide) (by decide) (by decide)⟩

end ParseBpfH
